import Mathlib

/-!
Verification of the crop-yield analysis pipeline.

The repository consists of two pandas scripts (a batch report and a
Streamlit dashboard) sharing one aggregation pipeline: load a CSV table,
coerce the year column, drop outlier rows (positive area, zero
production), apply optional equality filters and an inclusive year-range
filter, compute grouped means and sums, pick argmax keys, and classify a
rainfall/yield correlation into three bands.

This file embeds that pipeline shallowly: a table is a list of records,
numeric cells are rationals, absent-tolerant numeric cells are optional
rationals, and each pandas operation used by the scripts is translated to
an explicit Lean function on lists.
-/

/-- One row of the crop dataset.  `Area` and `Production` are the numeric
cells compared by the outlier-removal step; `Yield` and `Annual_Rainfall`
are absent-tolerant numeric cells (pandas NaN is modelled as `none`),
since the aggregation steps skip missing values in them. -/
structure Record where
  State : String
  Crop : String
  Season : String
  Year : Int
  Area : ℚ
  Production : ℚ
  Yield : Option ℚ
  Annual_Rainfall : Option ℚ
deriving DecidableEq, Repr

/-- STEP 2 outlier removal, identical in both scripts:
`df = df[~((df[Area] > 0) & (df[Production] == 0))]`. -/
def clean (t : List Record) : List Record :=
  t.filter fun r => !(decide (r.Area > 0) && decide (r.Production = 0))

/-- The State=A example row of the spec: Area 10, Production 0. -/
def rowA : Record := ⟨"A", "", "", 0, 10, 0, none, none⟩

/-- The State=B example row of the spec: Area 5, Production 20. -/
def rowB : Record := ⟨"B", "", "", 0, 5, 20, none, none⟩

/-- A row with zero area and zero production (not an outlier). -/
def rowZ : Record := ⟨"C", "", "", 0, 0, 0, none, none⟩

/-- Rainfall-impact insight classifier, identical in both scripts:
`if rainfall_corr > 0.3: ... elif rainfall_corr < -0.3: ... else: ...`.
The three result strings are the three printed messages, without the
leading status marks, which differ between the two scripts. -/
def rainfallImpact (c : ℚ) : String :=
  if c > 3/10 then "Rainfall has a positive impact on crop yield"
  else if c < -3/10 then "Too much rainfall may reduce crop yield"
  else "Rainfall has minimal impact on crop yield"

/-- The dashboard filter block: each selector, when set, keeps the rows
whose column equals the selection; the year-range slider keeps rows with
`year_range[0] <= Year <= year_range[1]`.  An unset selector (the
`All <X>` choice) applies no filter. -/
def applyFilters (t : List Record) (selState selCrop selSeason : Option String)
    (lo hi : Int) : List Record :=
  let t1 := match selState with
    | none => t
    | some s => t.filter fun r => r.State == s
  let t2 := match selCrop with
    | none => t1
    | some c => t1.filter fun r => r.Crop == c
  let t3 := match selSeason with
    | none => t2
    | some s => t2.filter fun r => r.Season == s
  t3.filter fun r => decide (lo ≤ r.Year) && decide (r.Year ≤ hi)

/-- The row predicate equivalent to the whole filter block. -/
def rowMatch (selState selCrop selSeason : Option String) (lo hi : Int)
    (r : Record) : Bool :=
  (match selState with | none => true | some s => r.State == s) &&
  ((match selCrop with | none => true | some c => r.Crop == c) &&
   ((match selSeason with | none => true | some s => r.Season == s) &&
    (decide (lo ≤ r.Year) && decide (r.Year ≤ hi))))

/-- `df[Year].min()` of the dashboard (0 on the empty table, where pandas
would raise instead; the dashboard always calls it on a loaded table). -/
def yearMin : List Record → Int
  | [] => 0
  | r :: rs => rs.foldl (fun m x => min m x.Year) r.Year

/-- `df[Year].max()` of the dashboard. -/
def yearMax : List Record → Int
  | [] => 0
  | r :: rs => rs.foldl (fun m x => max m x.Year) r.Year

lemma foldl_min_le_init (xs : List Record) (a : Int) :
    xs.foldl (fun m x => min m x.Year) a ≤ a := by
  induction xs generalizing a with
  | nil => simp
  | cons x xs ih =>
    simpa using le_trans (ih (min a x.Year)) (min_le_left _ _)

lemma foldl_min_le_mem (xs : List Record) (a : Int) (r : Record) (hr : r ∈ xs) :
    xs.foldl (fun m x => min m x.Year) a ≤ r.Year := by
  induction xs generalizing a with
  | nil => cases hr
  | cons x xs ih =>
    rcases List.mem_cons.mp hr with h | h
    · subst h
      simpa using le_trans (foldl_min_le_init xs (min a r.Year)) (min_le_right _ _)
    · simpa using ih (min a x.Year) h

lemma yearMin_le (t : List Record) (r : Record) (hr : r ∈ t) :
    yearMin t ≤ r.Year := by
  cases t with
  | nil => cases hr
  | cons x xs =>
    rcases List.mem_cons.mp hr with h | h
    · subst h
      exact foldl_min_le_init xs r.Year
    · exact foldl_min_le_mem xs x.Year r h

lemma init_le_foldl_max (xs : List Record) (a : Int) :
    a ≤ xs.foldl (fun m x => max m x.Year) a := by
  induction xs generalizing a with
  | nil => simp
  | cons x xs ih =>
    simpa using le_trans (le_max_left a x.Year) (ih (max a x.Year))

lemma mem_le_foldl_max (xs : List Record) (a : Int) (r : Record) (hr : r ∈ xs) :
    r.Year ≤ xs.foldl (fun m x => max m x.Year) a := by
  induction xs generalizing a with
  | nil => cases hr
  | cons x xs ih =>
    rcases List.mem_cons.mp hr with h | h
    · subst h
      simpa using le_trans (le_max_right a r.Year) (init_le_foldl_max xs (max a r.Year))
    · simpa using ih (max a x.Year) h

lemma le_yearMax (t : List Record) (r : Record) (hr : r ∈ t) :
    r.Year ≤ yearMax t := by
  cases t with
  | nil => cases hr
  | cons x xs =>
    rcases List.mem_cons.mp hr with h | h
    · subst h
      exact init_le_foldl_max xs r.Year
    · exact mem_le_foldl_max xs x.Year r h

lemma applyFilters_eq_filter (t : List Record) (s c se : Option String)
    (lo hi : Int) :
    applyFilters t s c se lo hi = t.filter (rowMatch s c se lo hi) := by
  cases s <;> cases c <;> cases se <;>
    simp only [applyFilters, List.filter_filter] <;>
    exact List.filter_congr fun r _ => by
      simp [rowMatch, Bool.and_assoc, Bool.and_comm, Bool.and_left_comm]

/-- C1: the cleaned table contains no row with positive area and zero
production, and on the two-row example table it removes exactly the
State=A row, retaining the State=B row. -/
theorem clean_no_outlier_rows :
    (∀ (t : List Record) (r : Record), r ∈ clean t →
      ¬(r.Area > 0 ∧ r.Production = 0)) ∧
    clean [rowA, rowB] = [rowB] := by
  constructor
  · intro t r hr
    have h := (List.mem_filter.mp hr).2
    simp only [Bool.not_eq_eq_eq_not, Bool.not_true, Bool.and_eq_false_imp,
      decide_eq_true_eq, decide_eq_false_iff_not] at h
    tauto
  · decide

/-- C1 witness: on the concrete example table, the State=B row is in the
cleaned output and indeed has no positive-area/zero-production pattern. -/
theorem clean_no_outlier_rows_witness :
    rowB ∈ clean [rowA, rowB] ∧ ¬(rowB.Area > 0 ∧ rowB.Production = 0) :=
  ⟨by decide, clean_no_outlier_rows.1 [rowA, rowB] rowB (by decide)⟩

/-- C10: cleaning retains, unchanged, every row that does not satisfy the
removal predicate; in particular any row with zero area (even with zero
production) and any row with positive production is retained. -/
theorem clean_retains_good_rows :
    (∀ (t : List Record) (r : Record), r ∈ t →
      ¬(r.Area > 0 ∧ r.Production = 0) → r ∈ clean t) ∧
    (∀ (t : List Record) (r : Record), r ∈ t → r.Area = 0 → r ∈ clean t) ∧
    (∀ (t : List Record) (r : Record), r ∈ t → r.Production > 0 → r ∈ clean t) := by
  refine ⟨fun t r hr h => ?_, fun t r hr h => ?_, fun t r hr h => ?_⟩
  · refine List.mem_filter.mpr ⟨hr, ?_⟩
    simp only [Bool.not_eq_eq_eq_not, Bool.not_true, Bool.and_eq_false_imp,
      decide_eq_true_eq, decide_eq_false_iff_not]
    tauto
  · refine List.mem_filter.mpr ⟨hr, ?_⟩
    simp only [Bool.not_eq_eq_eq_not, Bool.not_true, Bool.and_eq_false_imp,
      decide_eq_true_eq, decide_eq_false_iff_not]
    intro hpos
    exact absurd h (ne_of_gt hpos)
  · refine List.mem_filter.mpr ⟨hr, ?_⟩
    simp only [Bool.not_eq_eq_eq_not, Bool.not_true, Bool.and_eq_false_imp,
      decide_eq_true_eq, decide_eq_false_iff_not]
    intro _
    exact ne_of_gt h

/-- C10 witness: the zero-area/zero-production row survives cleaning of a
concrete table, and so does the positive-production row. -/
theorem clean_retains_good_rows_witness :
    (rowZ ∈ [rowZ, rowB] ∧ rowZ.Area = 0 ∧ rowZ ∈ clean [rowZ, rowB]) ∧
    (rowB ∈ [rowZ, rowB] ∧ rowB.Production > 0 ∧ rowB ∈ clean [rowZ, rowB]) :=
  ⟨⟨by decide, by decide,
     clean_retains_good_rows.2.1 [rowZ, rowB] rowZ (by decide) (by decide)⟩,
   ⟨by decide, by decide,
     clean_retains_good_rows.2.2 [rowZ, rowB] rowB (by decide) (by decide)⟩⟩

/-- C2: the insight classifier yields the positive-impact message exactly
when the coefficient exceeds 0.3, the negative-impact message exactly when
it is below -0.3, and the minimal-impact message exactly on the closed
band in between (so both boundary values classify as minimal); 0.35,
0.30 and -0.5 land in the stated bands. -/
theorem rainfallImpact_bands :
    (∀ c : ℚ,
      (rainfallImpact c = "Rainfall has a positive impact on crop yield" ↔
        c > 3/10) ∧
      (rainfallImpact c = "Too much rainfall may reduce crop yield" ↔
        c < -3/10) ∧
      (rainfallImpact c = "Rainfall has minimal impact on crop yield" ↔
        -3/10 ≤ c ∧ c ≤ 3/10)) ∧
    rainfallImpact (35/100) = "Rainfall has a positive impact on crop yield" ∧
    rainfallImpact (3/10) = "Rainfall has minimal impact on crop yield" ∧
    rainfallImpact (-5/10) = "Too much rainfall may reduce crop yield" := by
  refine ⟨fun c => ⟨?_, ?_, ?_⟩,
    by norm_num [rainfallImpact], by norm_num [rainfallImpact],
    by norm_num [rainfallImpact]⟩
  · unfold rainfallImpact
    split_ifs with h1 h2
    · exact iff_of_true rfl h1
    · exact iff_of_false (by decide) h1
    · exact iff_of_false (by decide) h1
  · unfold rainfallImpact
    split_ifs with h1 h2
    · exact iff_of_false (by decide) (by intro h; linarith)
    · exact iff_of_true rfl h2
    · exact iff_of_false (by decide) h2
  · unfold rainfallImpact
    split_ifs with h1 h2
    · exact iff_of_false (by decide) (by rintro ⟨h3, h4⟩; linarith)
    · exact iff_of_false (by decide) (by rintro ⟨h3, h4⟩; linarith)
    · exact iff_of_true rfl ⟨not_lt.mp h2, not_lt.mp h1⟩

/-- C2 witness: applying the band characterisation at the concrete
coefficient 0.4 yields the positive-impact message. -/
theorem rainfallImpact_bands_witness :
    rainfallImpact (4/10) = "Rainfall has a positive impact on crop yield" :=
  ((rainfallImpact_bands.1 (4/10)).1).mpr (by norm_num)

/-- C3: with all three selectors unset and the year range spanning the
full observed interval, the filter block returns the table unchanged
(even as a list, hence certainly as a set of rows). -/
theorem applyFilters_all_unset_full_range (t : List Record) :
    applyFilters t none none none (yearMin t) (yearMax t) = t := by
  simp only [applyFilters]
  refine List.filter_eq_self.mpr fun r hr => ?_
  simp [yearMin_le t r hr, le_yearMax t r hr]

/-- C4: applying the same filter block twice gives the same table as
applying it once, for every selector combination and year range. -/
theorem applyFilters_idempotent (t : List Record) (s c se : Option String)
    (lo hi : Int) :
    applyFilters (applyFilters t s c se lo hi) s c se lo hi =
      applyFilters t s c se lo hi := by
  simp only [applyFilters_eq_filter, List.filter_filter]
  exact List.filter_congr fun r _ => by cases rowMatch s c se lo hi r <;> simp

/-- The metric cells of a list of rows that are present (pandas drops NaN
cells before aggregating). -/
def colValues (rows : List Record) (metric : Record → Option ℚ) : List ℚ :=
  rows.filterMap metric

/-- The rows of one group of `df.groupby(dim)`: those whose dimension
column equals the group key. -/
def groupRows {κ : Type} [DecidableEq κ] (t : List Record) (dim : Record → κ)
    (k : κ) : List Record :=
  t.filter fun r => decide (dim r = k)

/-- Arithmetic mean of a list of rationals (division by zero on the empty
list, like pandas this is only consulted on nonempty groups). -/
def meanQ (vs : List ℚ) : ℚ := vs.sum / vs.length

/-- Mean of a group metric column: absent when no value is present
(pandas omits empty groups from the result). -/
def meanOpt (vs : List ℚ) : Option ℚ :=
  if vs.isEmpty then none else some (meanQ vs)

/-- One entry of `df.groupby(dim)[metric].mean()`. -/
def groupMean {κ : Type} [DecidableEq κ] (t : List Record) (dim : Record → κ)
    (metric : Record → Option ℚ) (k : κ) : Option ℚ :=
  meanOpt (colValues (groupRows t dim k) metric)

/-- Minimum of a list of rationals (0 on the empty list). -/
def qMin : List ℚ → ℚ
  | [] => 0
  | x :: xs => xs.foldl min x

/-- Maximum of a list of rationals (0 on the empty list). -/
def qMax : List ℚ → ℚ
  | [] => 0
  | x :: xs => xs.foldl max x

lemma qfoldl_min_le_init (xs : List ℚ) (a : ℚ) : xs.foldl min a ≤ a := by
  induction xs generalizing a with
  | nil => simp
  | cons x xs ih =>
    simpa using le_trans (ih (min a x)) (min_le_left _ _)

lemma qfoldl_min_le_mem (xs : List ℚ) (a v : ℚ) (hv : v ∈ xs) :
    xs.foldl min a ≤ v := by
  induction xs generalizing a with
  | nil => cases hv
  | cons x xs ih =>
    rcases List.mem_cons.mp hv with h | h
    · subst h
      simpa using le_trans (qfoldl_min_le_init xs (min a v)) (min_le_right _ _)
    · simpa using ih (min a x) h

lemma qMin_le_mem (vs : List ℚ) (v : ℚ) (hv : v ∈ vs) : qMin vs ≤ v := by
  cases vs with
  | nil => cases hv
  | cons x xs =>
    rcases List.mem_cons.mp hv with h | h
    · subst h
      exact qfoldl_min_le_init xs v
    · exact qfoldl_min_le_mem xs x v h

lemma qfoldl_init_le_max (xs : List ℚ) (a : ℚ) : a ≤ xs.foldl max a := by
  induction xs generalizing a with
  | nil => simp
  | cons x xs ih =>
    simpa using le_trans (le_max_left a x) (ih (max a x))

lemma qfoldl_mem_le_max (xs : List ℚ) (a v : ℚ) (hv : v ∈ xs) :
    v ≤ xs.foldl max a := by
  induction xs generalizing a with
  | nil => cases hv
  | cons x xs ih =>
    rcases List.mem_cons.mp hv with h | h
    · subst h
      simpa using le_trans (le_max_right a v) (qfoldl_init_le_max xs (max a v))
    · simpa using ih (max a x) h

lemma mem_le_qMax (vs : List ℚ) (v : ℚ) (hv : v ∈ vs) : v ≤ qMax vs := by
  cases vs with
  | nil => cases hv
  | cons x xs =>
    rcases List.mem_cons.mp hv with h | h
    · subst h
      exact qfoldl_init_le_max xs v
    · exact qfoldl_mem_le_max xs x v h

lemma mul_card_le_sum (vs : List ℚ) (c : ℚ) (h : ∀ v ∈ vs, c ≤ v) :
    c * vs.length ≤ vs.sum := by
  induction vs with
  | nil => simp
  | cons x xs ih =>
    have hxs := ih fun v hv => h v (List.mem_cons_of_mem x hv)
    have hx := h x (List.mem_cons_self x xs)
    simp only [List.length_cons, List.sum_cons]
    push_cast
    linarith

lemma sum_le_mul_card (vs : List ℚ) (c : ℚ) (h : ∀ v ∈ vs, v ≤ c) :
    vs.sum ≤ c * vs.length := by
  induction vs with
  | nil => simp
  | cons x xs ih =>
    have hxs := ih fun v hv => h v (List.mem_cons_of_mem x hv)
    have hx := h x (List.mem_cons_self x xs)
    simp only [List.length_cons, List.sum_cons]
    push_cast
    linarith

lemma meanQ_bounds (vs : List ℚ) (h : vs ≠ []) :
    qMin vs ≤ meanQ vs ∧ meanQ vs ≤ qMax vs := by
  have hn : 0 < (vs.length : ℚ) := by
    have := List.length_pos.mpr h
    exact_mod_cast this
  constructor
  · rw [meanQ, le_div_iff₀ hn]
    exact mul_card_le_sum vs (qMin vs) fun v hv => qMin_le_mem vs v hv
  · rw [meanQ, div_le_iff₀ hn]
    exact sum_le_mul_card vs (qMax vs) fun v hv => mem_le_qMax vs v hv

/-- C5: every per-group mean produced by a groupby-mean lies between the
minimum and the maximum of the metric values present in the rows of that
group, for any grouping dimension and any optional-numeric metric. -/
theorem groupMean_within_bounds {κ : Type} [DecidableEq κ] (t : List Record)
    (dim : Record → κ) (metric : Record → Option ℚ) (k : κ) (m : ℚ)
    (h : groupMean t dim metric k = some m) :
    qMin (colValues (groupRows t dim k) metric) ≤ m ∧
    m ≤ qMax (colValues (groupRows t dim k) metric) := by
  unfold groupMean meanOpt at h
  by_cases he : (colValues (groupRows t dim k) metric).isEmpty
  · rw [if_pos he] at h
    cases h
  · rw [if_neg he] at h
    have hm : meanQ (colValues (groupRows t dim k) metric) = m :=
      Option.some.inj h
    have hne : colValues (groupRows t dim k) metric ≠ [] := by
      intro hnil
      rw [hnil] at he
      exact he rfl
    subst hm
    exact meanQ_bounds _ hne

/-- Two rows of one state with yields 1 and 3, for evaluating the mean. -/
def rowY1 : Record := ⟨"A", "", "", 0, 1, 1, some 1, none⟩

/-- Second row of the mean-evaluation table, yield 3. -/
def rowY3 : Record := ⟨"A", "", "", 0, 1, 1, some 3, none⟩

/-- C5 witness: on a concrete two-row group with yields 1 and 3 the mean
is 2, which lies between the group minimum and maximum. -/
theorem groupMean_within_bounds_witness :
    groupMean [rowY1, rowY3] Record.State (fun r => r.Yield) "A" = some 2 ∧
    qMin (colValues (groupRows [rowY1, rowY3] Record.State "A")
      (fun r => r.Yield)) ≤ 2 ∧
    2 ≤ qMax (colValues (groupRows [rowY1, rowY3] Record.State "A")
      (fun r => r.Yield)) := by
  have h : groupMean [rowY1, rowY3] Record.State (fun r => r.Yield) "A" =
      some 2 := by
    norm_num [groupMean, meanOpt, meanQ, colValues, groupRows, List.filter,
      List.filterMap, rowY1, rowY3]
  exact ⟨h, groupMean_within_bounds [rowY1, rowY3] Record.State
    (fun r => r.Yield) "A" 2 h⟩

/-- What the top-N ranking, sort_values(ascending=False) on a group
aggregate (batch script line 87, dashboard line 109), guarantees about
its output: a permutation of the aggregate entries ordered by value
descending.  The call uses the default unstable quicksort, so the
relative order of entries with equal values is an unspecified artifact
of the library; faithfully, the ranking is the relation of all outputs
the call may produce, not a function selecting one of them. -/
def validSortValues (l out : List (String × ℚ)) : Prop :=
  out.Perm l ∧ out.Pairwise fun a b => b.2 ≤ a.2

instance qGeAntisymm : IsAntisymm ℚ fun a b => b ≤ a :=
  ⟨fun _ _ h1 h2 => le_antisymm h2 h1⟩

/-- C6 counterexample: on the aggregate A:4, B:4, C:2 the ranking the
code performs may emit B before A, an output ordered by value descending
but with the tie not in ascending label order and different from the
ranked order the claim requires. -/
theorem sortValues_tie_not_label_ordered :
    validSortValues [("A", 4), ("B", 4), ("C", 2)]
      [("B", 4), ("A", 4), ("C", 2)] ∧
    [(("B" : String), (4 : ℚ)), ("A", 4), ("C", 2)] ≠
      [("A", 4), ("B", 4), ("C", 2)] :=
  ⟨⟨by decide, by decide⟩, by decide⟩

/-- C6 amended: every output the ranking may produce is ordered by value
descending and its value column is fully determined (any two valid
outputs agree on it), but the order of equal-valued entries is not
determined: on the aggregate A:4, B:4, C:2 both the A-before-B and the
B-before-A orders are valid outputs, the value column always being
4, 4, 2. -/
theorem sortValues_desc_values_determined :
    (∀ l o1 o2 : List (String × ℚ), validSortValues l o1 →
      validSortValues l o2 → o1.map Prod.snd = o2.map Prod.snd) ∧
    validSortValues [("A", 4), ("B", 4), ("C", 2)]
      [("A", 4), ("B", 4), ("C", 2)] ∧
    validSortValues [("A", 4), ("B", 4), ("C", 2)]
      [("B", 4), ("A", 4), ("C", 2)] ∧
    (∀ out : List (String × ℚ),
      validSortValues [("A", 4), ("B", 4), ("C", 2)] out →
      out.map Prod.snd = [4, 4, 2]) := by
  have hdet : ∀ l o1 o2 : List (String × ℚ), validSortValues l o1 →
      validSortValues l o2 → o1.map Prod.snd = o2.map Prod.snd := by
    intro l o1 o2 h1 h2
    have hp : (o1.map Prod.snd).Perm (o2.map Prod.snd) :=
      (h1.1.trans h2.1.symm).map Prod.snd
    have hs1 : List.Sorted (fun a b : ℚ => b ≤ a) (o1.map Prod.snd) :=
      List.Pairwise.map Prod.snd (fun _ _ h => h) h1.2
    have hs2 : List.Sorted (fun a b : ℚ => b ≤ a) (o2.map Prod.snd) :=
      List.Pairwise.map Prod.snd (fun _ _ h => h) h2.2
    exact List.eq_of_perm_of_sorted hp hs1 hs2
  refine ⟨hdet, ⟨by decide, by decide⟩, ⟨by decide, by decide⟩, ?_⟩
  intro out hout
  have h := hdet _ out [("A", 4), ("B", 4), ("C", 2)] hout ⟨by decide, by decide⟩
  simpa using h

/-- C6 amended witness: the value-column determinism applied at the
concrete B-before-A output of the example aggregate. -/
theorem sortValues_desc_values_determined_witness :
    validSortValues [("A", 4), ("B", 4), ("C", 2)]
      [("B", 4), ("A", 4), ("C", 2)] ∧
    ([(("B" : String), (4 : ℚ)), ("A", 4), ("C", 2)]).map Prod.snd =
      [4, 4, 2] :=
  ⟨⟨by decide, by decide⟩,
   sortValues_desc_values_determined.2.2.2
     [("B", 4), ("A", 4), ("C", 2)] ⟨by decide, by decide⟩⟩

/-- Running maximum of `Series.idxmax`: keep the current best entry,
replace it only when a strictly larger value appears (so the first
occurrence of the maximum wins, as in pandas). -/
def idxmaxGo (best : String × ℚ) : List (String × ℚ) → String × ℚ
  | [] => best
  | p :: rest => idxmaxGo (if best.2 < p.2 then p else best) rest

/-- `Series.idxmax`: the key of the first maximal entry; `none` on the
empty aggregate, where pandas raises instead of returning a sentinel. -/
def idxmax : List (String × ℚ) → Option String
  | [] => none
  | p :: rest => some (idxmaxGo p rest).1

lemma idxmaxGo_mem (l : List (String × ℚ)) (best : String × ℚ) :
    idxmaxGo best l = best ∨ idxmaxGo best l ∈ l := by
  induction l generalizing best with
  | nil => exact Or.inl rfl
  | cons p rest ih =>
    rcases ih (if best.2 < p.2 then p else best) with h | h
    · by_cases hb : best.2 < p.2
      · right
        rw [idxmaxGo, h, if_pos hb]
        exact List.mem_cons_self p rest
      · left
        rw [idxmaxGo, h, if_neg hb]
    · right
      rw [idxmaxGo]
      exact List.mem_cons_of_mem p h

lemma idxmaxGo_ge_init (l : List (String × ℚ)) (best : String × ℚ) :
    best.2 ≤ (idxmaxGo best l).2 := by
  induction l generalizing best with
  | nil => exact le_refl _
  | cons p rest ih =>
    rw [idxmaxGo]
    refine le_trans ?_ (ih (if best.2 < p.2 then p else best))
    by_cases hb : best.2 < p.2
    · rw [if_pos hb]
      exact le_of_lt hb
    · rw [if_neg hb]

lemma idxmaxGo_ge_mem (l : List (String × ℚ)) (best : String × ℚ)
    (p : String × ℚ) (hp : p ∈ l) : p.2 ≤ (idxmaxGo best l).2 := by
  induction l generalizing best with
  | nil => cases hp
  | cons q rest ih =>
    rcases List.mem_cons.mp hp with h | h
    · subst h
      rw [idxmaxGo]
      refine le_trans ?_ (idxmaxGo_ge_init rest (if best.2 < p.2 then p else best))
      by_cases hb : best.2 < p.2
      · rw [if_pos hb]
      · rw [if_neg hb]
        exact le_of_not_lt hb
    · rw [idxmaxGo]
      exact ih (if best.2 < q.2 then q else best) h

/-- Distinct labels of a dimension column, in first-occurrence order. -/
def labelsOf (t : List Record) (dim : Record → String) : List String :=
  (t.map dim).dedup

/-- `df.groupby(dim)[metric].mean()` as an association list: one entry
per observed label whose group has at least one present metric value. -/
def groupAgg (t : List Record) (dim : Record → String)
    (metric : Record → Option ℚ) : List (String × ℚ) :=
  (labelsOf t dim).filterMap fun k =>
    (groupMean t dim metric k).map fun m => (k, m)

/-- One entry of `df.groupby(dim)[metric].sum()` for a total column. -/
def groupSum (t : List Record) (dim : Record → String)
    (metric : Record → ℚ) (k : String) : ℚ :=
  ((groupRows t dim k).map metric).sum

/-- `df.groupby(Season)[Production].sum()` as an association list. -/
def seasonProduction (t : List Record) : List (String × ℚ) :=
  (labelsOf t Record.Season).map fun k =>
    (k, groupSum t Record.Season (fun r => r.Production) k)

/-- Best performing state: `groupby(State)[Yield].mean().idxmax()`. -/
def bestState (t : List Record) : Option String :=
  idxmax (groupAgg t Record.State fun r => r.Yield)

/-- Top crop by yield: `groupby(Crop)[Yield].mean().idxmax()`. -/
def bestCrop (t : List Record) : Option String :=
  idxmax (groupAgg t Record.Crop fun r => r.Yield)

/-- Most productive season: `groupby(Season)[Production].sum().idxmax()`. -/
def bestSeason (t : List Record) : Option String :=
  idxmax (seasonProduction t)

/-- C8: on the empty aggregate the argmax is absent (the failure case,
which pandas raises and the spec names NoDataError) rather than any
sentinel key; whenever an argmax key is returned, it carries a value that
is maximal in the aggregate, and this holds in particular for the three
best-X queries of the scripts. -/
theorem idxmax_maximal_or_fails :
    idxmax [] = none ∧
    (∀ (l : List (String × ℚ)) (k : String), idxmax l = some k →
      ∃ v, (k, v) ∈ l ∧ ∀ p ∈ l, p.2 ≤ v) ∧
    (∀ (t : List Record) (k : String), bestState t = some k →
      ∃ v, (k, v) ∈ groupAgg t Record.State (fun r => r.Yield) ∧
        ∀ p ∈ groupAgg t Record.State (fun r => r.Yield), p.2 ≤ v) ∧
    (∀ (t : List Record) (k : String), bestCrop t = some k →
      ∃ v, (k, v) ∈ groupAgg t Record.Crop (fun r => r.Yield) ∧
        ∀ p ∈ groupAgg t Record.Crop (fun r => r.Yield), p.2 ≤ v) ∧
    (∀ (t : List Record) (k : String), bestSeason t = some k →
      ∃ v, (k, v) ∈ seasonProduction t ∧
        ∀ p ∈ seasonProduction t, p.2 ≤ v) := by
  have hgen : ∀ (l : List (String × ℚ)) (k : String), idxmax l = some k →
      ∃ v, (k, v) ∈ l ∧ ∀ p ∈ l, p.2 ≤ v := by
    intro l k h
    cases l with
    | nil => cases h
    | cons p rest =>
      rw [idxmax] at h
      have hk := Option.some.inj h
      refine ⟨(idxmaxGo p rest).2, ?_, ?_⟩
      · rw [← hk, Prod.mk.eta]
        rcases idxmaxGo_mem rest p with hh | hh
        · rw [hh]
          exact List.mem_cons_self p rest
        · exact List.mem_cons_of_mem p hh
      · intro q hq
        rcases List.mem_cons.mp hq with hh | hh
        · subst hh
          exact idxmaxGo_ge_init rest q
        · exact idxmaxGo_ge_mem rest p q hh
  exact ⟨rfl, hgen,
    fun t k h => hgen _ k h,
    fun t k h => hgen _ k h,
    fun t k h => hgen _ k h⟩

/-- C8 witness: on a concrete two-entry aggregate the argmax key is B and
its value 3 is maximal; the empty aggregate yields no key. -/
theorem idxmax_maximal_or_fails_witness :
    idxmax [] = none ∧
    (idxmax [("A", 1), ("B", 3)] = some "B" ∧
      ∃ v, ("B", v) ∈ [(("A" : String), (1 : ℚ)), ("B", 3)] ∧
        ∀ p ∈ [(("A" : String), (1 : ℚ)), ("B", 3)], p.2 ≤ v) :=
  ⟨idxmax_maximal_or_fails.1,
   by decide,
   idxmax_maximal_or_fails.2.1 [("A", 1), ("B", 3)] "B" (by decide)⟩

/-- Pairwise-complete observations of two optional numeric columns, as
used by Series.corr: the value pairs of the rows where both cells are
present. -/
def pairedVals (t : List Record) (f g : Record → Option ℚ) : List (ℚ × ℚ) :=
  t.filterMap fun r => (f r).bind fun a => (g r).map fun b => (a, b)

/-- The present cells of one optional numeric column. -/
def colNonMissing (t : List Record) (f : Record → Option ℚ) : List ℚ :=
  t.filterMap f

/-- Sum of squared deviations from the mean: unnormalized variance (the
sample-size normalization cancels in the correlation quotient). -/
def devSq (l : List ℚ) : ℚ := (l.map fun x => (x - meanQ l) ^ 2).sum

/-- Sum of products of deviations: unnormalized covariance. -/
def devProd (ps : List (ℚ × ℚ)) : ℚ :=
  (ps.map fun p => (p.1 - meanQ (ps.map Prod.fst)) *
    (p.2 - meanQ (ps.map Prod.snd))).sum

/-- Series.corr of two columns: the Pearson coefficient over the
pairwise-complete observations, absent (pandas NaN) when fewer than two
observations exist or either variance vanishes.  Only the final quotient
needs the reals (for the square root); every definedness condition stays
rational and decidable. -/
noncomputable def corr (t : List Record) (f g : Record → Option ℚ) : Option ℝ :=
  if (pairedVals t f g).length < 2 then none
  else if devSq ((pairedVals t f g).map Prod.fst) = 0 ∨
      devSq ((pairedVals t f g).map Prod.snd) = 0 then none
  else some ((devProd (pairedVals t f g) : ℝ) /
    Real.sqrt ((devSq ((pairedVals t f g).map Prod.fst) : ℝ) *
      (devSq ((pairedVals t f g).map Prod.snd) : ℝ)))

lemma pairedVals_length_le_left (t : List Record) (f g : Record → Option ℚ) :
    (pairedVals t f g).length ≤ (colNonMissing t f).length := by
  induction t with
  | nil => exact le_refl _
  | cons r rest ih =>
    simp only [pairedVals, colNonMissing, List.filterMap_cons] at ih ⊢
    cases hf : f r <;> cases hg : g r <;> simp only [hf, hg] <;>
      first
        | exact ih
        | simpa using Nat.le_succ_of_le ih
        | simpa using Nat.succ_le_succ ih

lemma pairedVals_length_le_right (t : List Record) (f g : Record → Option ℚ) :
    (pairedVals t f g).length ≤ (colNonMissing t g).length := by
  induction t with
  | nil => exact le_refl _
  | cons r rest ih =>
    simp only [pairedVals, colNonMissing, List.filterMap_cons] at ih ⊢
    cases hf : f r <;> cases hg : g r <;> simp only [hf, hg] <;>
      first
        | exact ih
        | simpa using Nat.le_succ_of_le ih
        | simpa using Nat.succ_le_succ ih

lemma pairedVals_self (t : List Record) (f : Record → Option ℚ) :
    pairedVals t f f = (colNonMissing t f).map fun a => (a, a) := by
  induction t with
  | nil => rfl
  | cons r rest ih =>
    simp only [pairedVals, colNonMissing, List.filterMap_cons] at ih ⊢
    cases hf : f r <;> simp [hf, ih]

lemma devSq_nonneg (l : List ℚ) : 0 ≤ devSq l := by
  unfold devSq
  apply List.sum_nonneg
  intro x hx
  simp only [List.mem_map] at hx
  obtain ⟨y, _, rfl⟩ := hx
  positivity

lemma dup_map_fst (vs : List ℚ) :
    ((vs.map fun a => (a, a)).map Prod.fst) = vs := by
  rw [List.map_map]
  exact List.map_id vs

lemma dup_map_snd (vs : List ℚ) :
    ((vs.map fun a => (a, a)).map Prod.snd) = vs := by
  rw [List.map_map]
  exact List.map_id vs

lemma devProd_self (vs : List ℚ) :
    devProd (vs.map fun a => (a, a)) = devSq vs := by
  unfold devProd devSq
  rw [dup_map_fst, dup_map_snd, List.map_map]
  refine congrArg List.sum (List.map_congr_left fun x _ => ?_)
  dsimp only [Function.comp]
  ring

/-- C7: the correlation is reported as absent, never as a number, when
either column has fewer than two present values or either side has zero
variance over the pairwise-complete observations; and the correlation of
a column with itself is exactly 1 whenever it is defined (at least two
observations, nonzero variance). -/
theorem corr_absent_or_self_one :
    (∀ (t : List Record) (f g : Record → Option ℚ),
      (colNonMissing t f).length < 2 ∨ (colNonMissing t g).length < 2 ∨
      devSq ((pairedVals t f g).map Prod.fst) = 0 ∨
      devSq ((pairedVals t f g).map Prod.snd) = 0 →
      corr t f g = none) ∧
    (∀ (t : List Record) (f : Record → Option ℚ),
      2 ≤ (pairedVals t f f).length →
      devSq ((pairedVals t f f).map Prod.fst) ≠ 0 →
      corr t f f = some 1) := by
  constructor
  · intro t f g h
    unfold corr
    split_ifs with h1 h2
    · rfl
    · rfl
    · exfalso
      rcases h with hl | hl | hv | hv
      · exact h1 (lt_of_le_of_lt (pairedVals_length_le_left t f g) hl)
      · exact h1 (lt_of_le_of_lt (pairedVals_length_le_right t f g) hl)
      · exact h2 (Or.inl hv)
      · exact h2 (Or.inr hv)
  · intro t f hn hv
    unfold corr
    rw [if_neg (not_lt.mpr hn)]
    have hsnd : ((pairedVals t f f).map Prod.snd) =
        ((pairedVals t f f).map Prod.fst) := by
      rw [pairedVals_self, dup_map_fst, dup_map_snd]
    rw [hsnd, if_neg (by simpa using hv)]
    have hprod : devProd (pairedVals t f f) =
        devSq ((pairedVals t f f).map Prod.fst) := by
      rw [pairedVals_self, dup_map_fst, devProd_self]
    rw [hprod]
    have hpos : 0 < devSq ((pairedVals t f f).map Prod.fst) :=
      lt_of_le_of_ne (devSq_nonneg _) (Ne.symm hv)
    have hposR : (0 : ℝ) < (devSq ((pairedVals t f f).map Prod.fst) : ℝ) := by
      exact_mod_cast hpos
    rw [Real.sqrt_mul_self hposR.le]
    rw [div_self (ne_of_gt hposR)]

/-- C7 witness: with a single present yield value the correlation is
absent; on the two-row table with yields 1 and 3 the self-correlation of
the yield column is defined and equals 1. -/
theorem corr_absent_or_self_one_witness :
    ((colNonMissing [rowY1] (fun r => r.Yield)).length < 2 ∧
      corr [rowY1] (fun r => r.Yield) (fun r => r.Annual_Rainfall) = none) ∧
    (2 ≤ (pairedVals [rowY1, rowY3] (fun r => r.Yield) (fun r => r.Yield)).length ∧
      devSq ((pairedVals [rowY1, rowY3] (fun r => r.Yield)
        (fun r => r.Yield)).map Prod.fst) ≠ 0 ∧
      corr [rowY1, rowY3] (fun r => r.Yield) (fun r => r.Yield) = some 1) := by
  have hv : devSq ((pairedVals [rowY1, rowY3] (fun r => r.Yield)
      (fun r => r.Yield)).map Prod.fst) ≠ 0 := by
    norm_num [devSq, meanQ, pairedVals, rowY1, rowY3, List.filterMap]
  refine ⟨⟨by decide, ?_⟩, by decide, hv, ?_⟩
  · exact corr_absent_or_self_one.1 [rowY1] (fun r => r.Yield)
      (fun r => r.Annual_Rainfall) (Or.inl (by decide))
  · exact corr_absent_or_self_one.2 [rowY1, rowY3] (fun r => r.Yield)
      (by decide) hv

/-- The optional year-source columns of the raw CSV: present when the
file has a column of that name. -/
structure YearCols where
  cropYearCol : Option (List ℚ)
  yearCol : Option (List ℚ)

/-- astype(int) on one cell: truncation toward zero. -/
def ratTrunc (q : ℚ) : Int := if 0 ≤ q then ⌊q⌋ else -⌊-q⌋

/-- STEP 2 year coercion of the batch script:
if Crop_Year is a column, Year is it cast to int; elif Year is a column,
Year is it cast to int; there is no else branch, so when neither column
exists the script continues with no Year column and raises nothing (the
error channel is present only to express the spec claim; no code path
uses it). -/
def coerceYear (cols : YearCols) : Except String (Option (List Int)) :=
  match cols.cropYearCol with
  | some v => Except.ok (some (v.map ratTrunc))
  | none => match cols.yearCol with
    | some v => Except.ok (some (v.map ratTrunc))
    | none => Except.ok none

/-- C9 counterexample: with neither Crop_Year nor Year present the
coercion step succeeds with no Year column; it does not fail, so no
SchemaError (nor any error) is raised, contrary to the claim. -/
theorem coerceYear_no_error_on_missing :
    coerceYear ⟨none, none⟩ = Except.ok none := rfl

/-- C9 amended: Year is coerced from Crop_Year when present, otherwise
from Year when present; when neither column exists the step neither
fails nor produces a Year column (downstream year-dependent steps are
silently skipped). -/
theorem coerceYear_priority :
    (∀ (cols : YearCols) (v : List ℚ), cols.cropYearCol = some v →
      coerceYear cols = Except.ok (some (v.map ratTrunc))) ∧
    (∀ (cols : YearCols) (v : List ℚ), cols.cropYearCol = none →
      cols.yearCol = some v →
      coerceYear cols = Except.ok (some (v.map ratTrunc))) ∧
    (∀ cols : YearCols, cols.cropYearCol = none → cols.yearCol = none →
      coerceYear cols = Except.ok none) := by
  refine ⟨fun cols v h => ?_, fun cols v h1 h2 => ?_, fun cols h1 h2 => ?_⟩
  · unfold coerceYear
    rw [h]
  · unfold coerceYear
    rw [h1, h2]
  · unfold coerceYear
    rw [h1, h2]

/-- C9 witness: concrete columns exercising all three branches of the
coercion priority. -/
theorem coerceYear_priority_witness :
    coerceYear ⟨some [1997], some [2000]⟩ =
      Except.ok (some (([1997] : List ℚ).map ratTrunc)) ∧
    coerceYear ⟨none, some [2000]⟩ =
      Except.ok (some (([2000] : List ℚ).map ratTrunc)) ∧
    coerceYear ⟨none, none⟩ = Except.ok none :=
  ⟨coerceYear_priority.1 ⟨some [1997], some [2000]⟩ [1997] rfl,
   coerceYear_priority.2.1 ⟨none, some [2000]⟩ [2000] rfl rfl,
   coerceYear_priority.2.2 ⟨none, none⟩ rfl rfl⟩
